import Mathlib

/-!
Shallow embedding of the pytype typing game (src/pytype.py).

The game is single-threaded and frame-stepped, so the whole engine loop is
modelled as a pure step function on an explicit state.  Two aspects of the
source cannot be embedded exactly and are abstracted:

* floating-point geometry (trigonometric drift of enemy ships, spark
  ballistics, rect collision of the moving sprites against the player, font
  metrics) is injected through an `Env` record of functions supplied by the
  theorem or the concrete trace;
* randomness (`random.randint`, `random.choice`, `random.uniform`,
  `random.sample`) is modelled by a deterministic stream of naturals
  (`List Nat`) threaded through the state; a draw consumes stream elements,
  and an exhausted stream yields 0.

All container iteration orders that are unordered in Python (sets, dict
views) are fixed to list order here; no verified property depends on the
particular order.
-/

namespace PyType

/-- Positions of sprites.  The source stores float pairs; the embedding keeps
integer pairs and lets the environment decide how sprites move. -/
abbrev Pos := Int × Int

/-! ## The global cooldown registry

`cooldowns = collections.defaultdict(int)` (pytype.py line 17): a mapping from
keys (the bound method `Gameplay.spawn_word`, the string `'player-hit'`, or an
`Explosion` instance) to integer millisecond counters, defaulting to 0.
Modelled as an association list with lookup default 0. -/

/-- Keys used in the `cooldowns` registry. -/
inductive CKey where
  | kSpawn : CKey
  | kPlayerHit : CKey
  | kExpl : Nat → CKey
deriving DecidableEq, Repr

abbrev Cooldowns := List (CKey × Int)

/-- Reading `cooldowns[key]`: a missing key reads as the defaultdict default 0. -/
def cdGet (cd : Cooldowns) (k : CKey) : Int :=
  match cd.find? (fun p => decide (p.1 = k)) with
  | some p => p.2
  | none => 0

/-- Writing `cooldowns[key] = v`. -/
def cdSet (cd : Cooldowns) (k : CKey) (v : Int) : Cooldowns :=
  if cd.any (fun p => decide (p.1 = k)) then
    cd.map (fun p => if p.1 = k then (k, v) else p)
  else
    cd ++ [(k, v)]

/-- The per-frame decrement in `Engine.run` (lines 190-193):
`for key, value in cooldowns.items(): if value > 0: cooldowns[key] -= elapsed`.
Note that the subtraction is not clamped: a positive entry smaller than
`elapsed` becomes negative. -/
def cdTick (elapsed : Int) (cd : Cooldowns) : Cooldowns :=
  cd.map (fun p => if p.2 > 0 then (p.1, p.2 - elapsed) else p)

/-- Source `Gameplay.clear_explosions` (lines 424-427): delete every cooldown entry
whose key is an `Explosion`. -/
def cdClearExpl (cd : Cooldowns) : Cooldowns :=
  cd.filter (fun p => match p.1 with | CKey.kExpl _ => false | _ => true)

/-! ## Pygame rects (integer geometry used by `random_location`) -/

/-- A pygame `Rect`: position and size, all integers. -/
structure PRect where
  x : Int
  y : Int
  w : Int
  h : Int
deriving DecidableEq, Repr

def PRect.right (r : PRect) : Int := r.x + r.w
def PRect.bottom (r : PRect) : Int := r.y + r.h
def PRect.center (r : PRect) : Pos := (r.x + r.w / 2, r.y + r.h / 2)

/-- Assigning `rect.center = c`. -/
def PRect.setCenter (r : PRect) (c : Pos) : PRect :=
  { r with x := c.1 - r.w / 2, y := c.2 - r.h / 2 }

/-- Source `rect.colliderect(other)`: true when the rects overlap with nonzero area. -/
def PRect.colliderect (r o : PRect) : Bool :=
  decide (r.x < o.x + o.w) && decide (o.x < r.x + r.w) &&
  decide (r.y < o.y + o.h) && decide (o.y < r.y + r.h)

/-- Source `rect.clamp_ip(inside)`, following pygame's clamp: if the rect is at least
as large as `inside` along an axis it is centered there, otherwise it is
shifted to lie inside. -/
def PRect.clampIp (r A : PRect) : PRect :=
  let x :=
    if A.w ≤ r.w then A.x + A.w / 2 - r.w / 2
    else if r.x < A.x then A.x
    else if A.x + A.w < r.x + r.w then A.x + A.w - r.w
    else r.x
  let y :=
    if A.h ≤ r.h then A.y + A.h / 2 - r.h / 2
    else if r.y < A.y then A.y
    else if A.y + A.h < r.y + r.h then A.y + A.h - r.h
    else r.y
  { r with x := x, y := y }

/-- Containment of one rect in another. -/
def PRect.insideOf (r A : PRect) : Prop :=
  A.x ≤ r.x ∧ r.x + r.w ≤ A.x + A.w ∧ A.y ≤ r.y ∧ r.y + r.h ≤ A.y + A.h

instance (r A : PRect) : Decidable (r.insideOf A) := by
  unfold PRect.insideOf; infer_instance

/-- Source `random.randint(a, b)`: inclusive on both ends, driven by one stream draw. -/
def randint (a b : Int) (r : Nat) : Int :=
  if b < a then a else a + (Int.ofNat r) % (b - a + 1)

/-- Source `random_location(rect, inside, avoiding=None, limit=None)` (lines 48-67).
Repeatedly picks a random center in `inside`, clamps the rect into `inside`,
and accepts as soon as the rect collides with nothing in `avoiding`; with an
empty `avoiding` the first attempt is accepted.  The source's unlimited loop
is modelled with explicit fuel (the source's `limit`); on exhausted fuel the
last attempted rect is returned, matching the source's fall-through `return`.
Returns the rect together with the remaining random stream. -/
def random_location (r inside : PRect) (avoiding : List PRect) :
    Nat → List Nat → PRect × List Nat
  | 0, rng => (r, rng)
  | Nat.succ fuel, rng =>
    let cx := randint inside.x inside.right (rng.headD 0)
    let cy := randint inside.y inside.bottom (rng.tail.headD 0)
    let r' := (r.setCenter (cx, cy)).clampIp inside
    let rng' := rng.tail.tail
    if avoiding.all (fun o => !(r'.colliderect o)) then (r', rng')
    else random_location r' inside avoiding fuel rng'

/-! ## The word pool (`Wordbag`, lines 352-372) -/

/-- Source `Wordbag`: the full vocabulary plus the current sample.  A fresh bag has
`_sample = None`, modelled as `none`; `randomize` installs `some` list. -/
structure Wordbag where
  words : List String
  sample : Option (List String)
deriving DecidableEq, Repr

/-- Source `Wordbag.__bool__`: `bool(self._sample)` — `None` and `[]` are both falsy. -/
def wbBool (wb : Wordbag) : Bool :=
  match wb.sample with
  | none => false
  | some l => !l.isEmpty

/-- Source `Wordbag.__len__`: `len(self._sample)` raises `TypeError` when the sample
is unset; modelled as `none`. -/
def wbLen (wb : Wordbag) : Option Nat :=
  wb.sample.map List.length

/-- Source `Wordbag.pop`: `self._sample.pop()` pops the last element of the sample
list; it raises (`AttributeError` on an unset sample, `IndexError` on an empty
one), modelled as `none`. -/
def wbPop (wb : Wordbag) : Option (String × Wordbag) :=
  match wb.sample with
  | none => none
  | some l =>
    match l.getLast? with
    | none => none
    | some w => some (w, { wb with sample := some l.dropLast })

/-- Remove the element at index `i`, returning it and the remainder. -/
def pickIdx : List String → Nat → Option (String × List String)
  | [], _ => none
  | a :: rest, 0 => some (a, rest)
  | a :: rest, Nat.succ n => (pickIdx rest n).map (fun p => (p.1, a :: p.2))

/-- Source `random.sample(population, k)`: `k` draws without replacement, each draw
removing one element chosen by the random stream.  Callers guard `k` against
the population size; on an exhausted population the result is truncated. -/
def sampleK : List String → Nat → List Nat → List String
  | _, 0, _ => []
  | popl, Nat.succ k, rng =>
    match pickIdx popl ((rng.headD 0) % popl.length) with
    | none => []
    | some p => p.1 :: sampleK p.2 k rng.tail

/-- Source `Wordbag.randomize(k, predicate)` (lines 368-372): filters the vocabulary
through the predicate into a set (modelled by `dedup`), then samples `k`
without replacement.  `random.sample` raises `ValueError` when `k` exceeds the
population size, modelled as `none`. -/
def randomize (wb : Wordbag) (k : Nat) (p : String → Bool) (rng : List Nat) :
    Option Wordbag :=
  let population := (wb.words.filter p).dedup
  if k ≤ population.length then
    some { wb with sample := some (sampleK population k rng) }
  else
    none

/-! ## Entities

The sprite group `Gameplay.group` is modelled by separate lists.  A pygame
sprite is "alive" while it belongs to the group; `kill()` removes it from all
groups.  Targets (a `TextSprite` paired with its `EnemyShipSprite`) and
bullets keep explicit alive flags because the per-frame death detection in
`update_gameplay` compares aliveness before and after `group.update`; sparks
are simply removed from their lists. -/

/-- A Target: a `TextSprite` (remaining text) paired with its
`EnemyShipSprite` (the carrier).  `textAlive`/`shipAlive` model membership of
the two sprites in `Gameplay.group`.  `spawnRect` records the rect chosen by
`random_location` at spawn time. -/
structure Tgt where
  tid : Nat
  text : List Char
  textAlive : Bool
  shipAlive : Bool
  shipPos : Pos
  spawnRect : PRect
deriving DecidableEq, Repr

/-- A `BulletSprite`: fired at a target's ship, killed after its accumulator
reaches `timetolive = 500`. -/
structure Blt where
  bid : Nat
  targetId : Nat
  acc : Int
  origPos : Pos
  pos : Pos
  alive : Bool
deriving DecidableEq, Repr

/-- A `Spark`: the drawn size/angle/speed arguments plus a position.  The
`speed` field stands for the float drawn by `random.uniform`; two draws are
equal exactly when the drawn floats are. -/
structure Spk where
  sid : Nat
  size : Nat
  angle : Nat
  speed : Nat
  pos : Pos
deriving DecidableEq, Repr

/-- The spark-argument tuple produced by `randomspark_args` inside
`Explosion.__init__` (lines 749-752).  Center and color are fixed per
explosion, so equality of full tuples reduces to these three fields. -/
structure SparkArg where
  size : Nat
  angle : Nat
  speed : Nat
deriving DecidableEq, Repr

/-- One call of `randomspark_args`: `random.choice(sizes)` over
`[(1,1),(2,2)]`, `random.choice(range(360))`, `random.uniform(min,max)`. -/
def drawSparkArg (rng : List Nat) : SparkArg × List Nat :=
  ({ size := 1 + (rng.headD 0) % 2,
     angle := (rng.tail.headD 0) % 360,
     speed := rng.tail.tail.headD 0 }, rng.drop 3)

/-- The `nsparks` draws of `randomspark_args` in construction order. -/
def drawSparkArgs : Nat → List Nat → List SparkArg × List Nat
  | 0, rng => ([], rng)
  | Nat.succ n, rng =>
    let d := drawSparkArg rng
    let rest := drawSparkArgs n d.2
    (d.1 :: rest.1, rest.2)

/-- An `Explosion` object: its sparks are constructed eagerly in
`Explosion.__init__` but only enter the gameplay group when the explosion is
materialized. -/
structure Explosion where
  eid : Nat
  center : Pos
  sparks : List Spk
deriving DecidableEq, Repr

/-- Source `Explosion.__init__(center, nsparks, color, speeds)` (lines 740-755):
draws `nsparks` argument tuples, collects them into a set — `sparkargs =
set(randomspark_args() for _ in range(nsparks))` — and builds one `Spark` per
distinct tuple at the explosion's center.  `eid`/`startSid` supply fresh
identities. -/
def Explosion.create (center : Pos) (nsparks : Nat) (eid startSid : Nat)
    (rng : List Nat) : Explosion × List Nat :=
  let d := drawSparkArgs nsparks rng
  let distinct := d.1.dedup
  ({ eid := eid, center := center,
     sparks := (List.range distinct.length).zip distinct |>.map
       (fun p => { sid := startSid + p.1, size := p.2.size, angle := p.2.angle,
                   speed := p.2.speed, pos := center }) }, d.2)

/-! ## Environment and configuration -/

/-- The injected environment: every float-valued geometric computation of the
source appears here as an opaque function chosen per theorem or per trace. -/
structure Env where
  /-- Size of `TextSprite(word).rect` (font metrics plus padding). -/
  textRect : String → Int × Int
  /-- One frame of enemy drift toward the player (lines 624-628,
  `cos`/`sin` of the angle to the player). -/
  moveShip : Pos → Pos → Pos
  /-- One frame of ballistic spark motion from its angle and speed. -/
  moveSpark : Nat → Nat → Pos → Pos
  /-- Whether a spark's rect has left `self.space` (line 524). -/
  oobSpark : Pos → Bool
  /-- Source `enemyshipsprite.rect.colliderect(self.player.rect)` (line 634) on the
  float-positioned moving sprites. -/
  collides : Pos → Pos → Bool
  /-- Knock-back applied to the target when a bullet lands (lines 710-715). -/
  knock : Pos → Pos → Pos
  /-- Bullet interpolation `lerpi(original, target, acc/ttl)` (lines 705-706). -/
  moveBullet : Pos → Pos → Int → Pos
  /-- Source `math.degrees(abs_angle_to(...))` used for facing angles. -/
  angleTo : Pos → Pos → Int

/-- Static configuration fixed at `Gameplay.__init__`: the level table
`(sample size, predicate)`, the spawn area, the player's (constant) position,
and the `skip_intro` flag. -/
structure Cfg where
  levels : List (Nat × (String → Bool))
  spawn_area : PRect
  playerPos : Pos
  skip_intro : Bool

/-! ## Gameplay and engine state -/

/-- Which update routine sits on `Gameplay.updatestack`.  `combatU` is
`update_gameplay`, `introU` is `update_intro`, `winwaitU` is
`update_gameplay_wait_for_animations`; the stack top (last element) runs. -/
inductive SubU where
  | combatU : SubU
  | introU : SubU
  | winwaitU : SubU
deriving DecidableEq, Repr

/-- Top-level scenes on the `StateManager` stack. -/
inductive Scn where
  | gameplayS : Scn
  | pauseS : Scn
  | deathS : Scn
  | winS : Scn
deriving DecidableEq, Repr

/-- A posted scene-transition event (`POPSTATE` / `PUSHSTATE`). -/
inductive TEv where
  | popE : TEv
  | pushE : Scn → TEv
deriving DecidableEq, Repr

/-- The mutable state of the single `Gameplay` instance, together with the
process-global `cooldowns` registry.  `expls` mirrors the `Explosion` objects
held as cooldown keys (deferred ship explosions).  `crashed` records that the
source would have raised an uncaught exception; once set, the engine model
stops. -/
structure GState where
  wordbag : Wordbag
  cooldowns : Cooldowns
  targets : List Tgt
  bullets : List Blt
  sparks : List Spk
  expls : List Explosion
  playerHealth : Int
  playerAngle : Int
  locked : Option Nat
  maxNsprites : Nat
  paused : Bool
  level : Nat
  damage_on_miss : Bool
  updatestack : List SubU
  introTime : Nat
  rng : List Nat
  nextId : Nat
  crashed : Bool
deriving DecidableEq, Repr

/-- The engine state: the scene stack (top = last), the gameplay state, and
the queue of pending transition events. -/
structure Eng where
  stack : List Scn
  g : GState
  queue : List TEv
deriving DecidableEq, Repr

/-! ## Gameplay helper queries -/

def findTgt (g : GState) (tid : Nat) : Option Tgt :=
  g.targets.find? (fun t => decide (t.tid = tid))

/-- The alive `TextSprite`s, in group order. -/
def aliveTexts (g : GState) : List Tgt := g.targets.filter (fun t => t.textAlive)

/-- The alive `EnemyShipSprite`s, in group order. -/
def aliveShips (g : GState) : List Tgt := g.targets.filter (fun t => t.shipAlive)

def aliveShipIds (g : GState) : List Nat := (aliveShips g).map (fun t => t.tid)

def aliveBulletIds (g : GState) : List Nat :=
  (g.bullets.filter (fun b => b.alive)).map (fun b => b.bid)

/-- Source `Gameplay.is_win_state` (lines 493-501): no words left in the bag, the
spawn cooldown is ready (`cooldowns[self.spawn_word] <= 0`), and no
`TextSprite` or `Spark` is in the group. -/
def is_win_state (g : GState) : Bool :=
  !wbBool g.wordbag && decide (cdGet g.cooldowns CKey.kSpawn ≤ 0) &&
  (aliveTexts g).isEmpty && g.sparks.isEmpty

/-- Source `Gameplay.needs_word_spawn` (lines 503-507). -/
def needs_word_spawn (g : GState) : Bool :=
  decide ((aliveTexts g).length < g.maxNsprites) && wbBool g.wordbag &&
  decide (cdGet g.cooldowns CKey.kSpawn ≤ 0)

/-! ## Gameplay mutators -/

/-- Update the target with the given id in place (its list entry). -/
def updTgtById (ts : List Tgt) (tid : Nat) (f : Tgt → Tgt) : List Tgt :=
  ts.map (fun t => if t.tid = tid then f t else t)

/-- Source `group.move_to_front(sprite)`: the sprite moves to the top layer, i.e. to
the end of the group's bottom-to-top iteration order. -/
def moveToBack (ts : List Tgt) (tid : Nat) : List Tgt :=
  ts.filter (fun t => decide (t.tid ≠ tid)) ++ ts.filter (fun t => decide (t.tid = tid))

/-- Source `Gameplay._add_sparks` via `group.add`: sprites already in the group are
skipped, the rest are appended. -/
def addSparks (g : GState) (sp : List Spk) : GState :=
  { g with sparks :=
      g.sparks ++ sp.filter (fun s => !g.sparks.any (fun t => decide (t.sid = s.sid))) }

/-- Source `Gameplay.remove_sparks_outofbounds` (lines 521-525): kill every group
spark that has left the space.  `kill()` removes the spark from all groups,
including the internal group of a deferred `Explosion`. -/
def remove_sparks_outofbounds (env : Env) (g : GState) : GState :=
  let dead := g.sparks.filter (fun s => env.oobSpark s.pos)
  { g with sparks := g.sparks.filter (fun s => !env.oobSpark s.pos),
           expls := g.expls.map (fun ex =>
             { ex with sparks :=
                 ex.sparks.filter (fun s => !dead.any (fun d => decide (d.sid = s.sid))) }) }

/-- Source `BulletSprite.update(elapsed)` (lines 701-718) of one live bullet, acting
on the bullet and on the target list: advance the accumulator and position;
on reaching `timetolive = 500`, kill the bullet, knock the target back, and
kill the target's ship and text sprite if its text is empty. -/
def bulletStep (env : Env) (elapsed : Int) (st : List Blt × List Tgt) (b : Blt) :
    List Blt × List Tgt :=
  if !b.alive then (st.1 ++ [b], st.2)
  else
    let acc := b.acc + elapsed
    let tpos := match st.2.find? (fun t => decide (t.tid = b.targetId)) with
                | some t => t.shipPos
                | none => b.pos
    let pos := env.moveBullet b.origPos tpos acc
    if 500 ≤ acc then
      let ts := updTgtById st.2 b.targetId (fun t =>
        let t := { t with shipPos := env.knock b.origPos t.shipPos }
        if t.text = [] then { t with textAlive := false, shipAlive := false } else t)
      (st.1 ++ [{ b with acc := acc, pos := pos, alive := false }], ts)
    else
      (st.1 ++ [{ b with acc := acc, pos := pos }], st.2)

/-- Source `self.group.update(elapsed)`: the player and text sprites have trivial or
no `update`; bullets run `BulletSprite.update` and sparks drift.  Enemy ships
have no `update` method — they are moved later by `update_gameplay` itself. -/
def groupUpdate (env : Env) (elapsed : Int) (g : GState) : GState :=
  let bt := g.bullets.foldl (bulletStep env elapsed) ([], g.targets)
  { g with bullets := bt.1, targets := bt.2,
           sparks := g.sparks.map (fun s =>
             { s with pos := env.moveSpark s.angle s.speed s.pos }) }

/-- The bullet arm of `spawn_explosions_from_deaths` (lines 549-552): an
immediate `Explosion(sprite.position, 10, (200,)*3, (15,25))` whose sparks
join the group at once. -/
def bulletExplStep (g : GState) (b : Blt) : GState :=
  let er := Explosion.create b.pos 10 g.nextId (g.nextId + 1) g.rng
  let g2 := { g with rng := er.2, nextId := g.nextId + 1 + er.1.sparks.length }
  addSparks g2 er.1.sparks

/-- The enemy-ship arm of `spawn_explosions_from_deaths` (lines 553-556): a
deferred `Explosion(sprite.rect.center, 600, (200,10,10), (5,10))` registered
in the cooldown registry with delay 500. -/
def shipExplStep (g : GState) (t : Tgt) : GState :=
  let er := Explosion.create t.shipPos 600 g.nextId (g.nextId + 1) g.rng
  { g with rng := er.2, nextId := g.nextId + 1 + er.1.sparks.length,
           expls := g.expls ++ [er.1],
           cooldowns := cdSet g.cooldowns (CKey.kExpl er.1.eid) 500 }

/-- Source `Gameplay.spawn_explosions_from_deaths(died)` (lines 547-556).  The
source iterates one unordered set; here dead bullets are processed before
dead ships. -/
def spawn_explosions_from_deaths (deadBullets : List Blt)
    (deadShips : List Tgt) (g : GState) : GState :=
  deadShips.foldl shipExplStep (deadBullets.foldl bulletExplStep g)

/-- The guard `any(sprite for sprite in self.group if isinstance(key,
Explosion) and sprite == key)` (lines 562-563) compares group sprites against
the `Explosion` key itself; the group only ever contains sprites (an
explosion's sparks, not the explosion), so the guard never finds anything. -/
def groupContainsExplosion (_g : GState) (_ex : Explosion) : Bool := false

/-- One registered explosion checked by `spawn_explosions_from_cooldowns`
(lines 560-565): with the timer ready (and the vacuous membership guard), its
sparks are added to the group. -/
def explCooldownStep (g : GState) (ex : Explosion) : GState :=
  if !groupContainsExplosion g ex
      && decide (cdGet g.cooldowns (CKey.kExpl ex.eid) ≤ 0) then
    addSparks g ex.sparks
  else g

/-- Source `Gameplay.spawn_explosions_from_cooldowns` (lines 558-565): add the sparks
of every registered explosion whose cooldown is ready.  Because
`groupContainsExplosion` is constantly false, the sparks are (idempotently)
re-added on every frame on which the cooldown is ready. -/
def spawn_explosions_from_cooldowns (g : GState) : GState :=
  g.expls.foldl explCooldownStep g

/-- Source `Gameplay.spawn_word` (lines 567-575): pop a word from the bag, place its
text sprite via `random_location` — note: no `avoiding` collection is passed —
and arm the spawn cooldown with 1000.  A pop from an unset or empty sample
would raise; `needs_word_spawn` guards the live call site. -/
def spawn_word (env : Env) (cfg : Cfg) (g : GState) : GState :=
  match wbPop g.wordbag with
  | none => { g with crashed := true }
  | some pw =>
    let sz := env.textRect pw.1
    let rl := random_location { x := 0, y := 0, w := sz.1, h := sz.2 }
                cfg.spawn_area [] 1 g.rng
    let t : Tgt := { tid := g.nextId, text := pw.1.toList, textAlive := true,
                     shipAlive := true, shipPos := rl.1.center, spawnRect := rl.1 }
    { g with wordbag := pw.2, targets := g.targets ++ [t],
             nextId := g.nextId + 1, rng := rl.2,
             cooldowns := cdSet g.cooldowns CKey.kSpawn 1000 }

/-- Source `Gameplay.hit_player` (lines 482-491): decrement health; at exactly zero,
pop the gameplay scene and push the game-over menu.  (Reached only under the
`damage_on_miss` policy, which the source never enables.) -/
def hit_player (g : GState) : GState × List TEv :=
  let g := { g with playerHealth := g.playerHealth - 1 }
  if g.playerHealth = 0 then
    ({ g with paused := false }, [TEv.popE, TEv.pushE Scn.deathS])
  else (g, [])

/-- The lock-acquisition scan at the top of `Gameplay.fire` (lines 453-460):
with no lock, the first group text sprite whose non-empty text starts with
the letter becomes the locked target. -/
def fire_acquire (c : Char) (g : GState) : GState :=
  if g.locked = none then
    match (aliveTexts g).find?
        (fun t => !t.text.isEmpty && decide (t.text.head? = some c)) with
    | some t => { g with locked := some t.tid }
    | none => g
  else g

/-- The typing resolution of `Gameplay.fire` (lines 461-476): a matching
letter consumes the locked target's head character, moves the sprite to the
front when it is still in the group, emits a bullet from the player at the
locked target's ship, and releases the lock when the text empties; a
non-matching letter hurts the player only under `damage_on_miss`.  A lock on
an empty text would raise IndexError at `self.locked.text[0]`. -/
def fire_resolve (cfg : Cfg) (c : Char) (g : GState) : GState × List TEv :=
  match g.locked with
  | none => (g, [])
  | some tid =>
    match findTgt g tid with
    | none => (g, [])   -- unreachable: targets leave the list only at reset, which unlocks
    | some t =>
      match t.text with
      | [] => ({ g with crashed := true }, [])
      | c0 :: rest =>
        if c = c0 then
          let targets := updTgtById g.targets tid (fun t => { t with text := rest })
          let targets := if t.textAlive then moveToBack targets tid else targets
          let b : Blt := { bid := g.nextId, targetId := tid, acc := 0,
                           origPos := cfg.playerPos, pos := cfg.playerPos,
                           alive := true }
          ({ g with targets := targets, bullets := g.bullets ++ [b],
                    nextId := g.nextId + 1,
                    locked := if rest = [] then none else some tid }, [])
        else if g.damage_on_miss then hit_player g
        else (g, [])

/-- Source `Gameplay.fire(letter)` (lines 452-476): acquisition then resolution. -/
def fire (cfg : Cfg) (c : Char) (g : GState) : GState × List TEv :=
  fire_resolve cfg c (fire_acquire c g)

/-- Source `Gameplay.reset` (lines 527-545): empty the group (deferred explosions and
the whole cooldown registry survive — only the group is emptied), restore
`max_nsprites`, the lock, the player, re-randomize the word bag from the
current level's `(k, predicate)`, and rebuild the update stack, skipping the
intro when configured.  An out-of-range level or an oversized sample request
raises.  `sampleK` consumes one stream element per draw, hence `drop k`. -/
def reset (cfg : Cfg) (g : GState) : GState :=
  let g := { g with targets := [], bullets := [], sparks := [],
                    maxNsprites := 3, locked := none }
  match cfg.levels.get? g.level with
  | none => { g with crashed := true }
  | some kp =>
    match randomize g.wordbag kp.1 kp.2 g.rng with
    | none => { g with crashed := true }
    | some wb =>
      let g := { g with wordbag := wb, rng := g.rng.drop kp.1,
                        playerHealth := 3, playerAngle := 90,
                        updatestack := [SubU.combatU, SubU.introU],
                        introTime := 0 }
      if cfg.skip_intro then { g with updatestack := [SubU.combatU] } else g

/-- Source `Gameplay.enter` (lines 441-446): reset only when not resuming from a
pause, then clear the pause flag. -/
def gameplayEnter (cfg : Cfg) (g : GState) : GState :=
  if !g.paused then { reset cfg g with paused := false }
  else { g with paused := false }

/-! ## The gameplay sub-state update routines -/

/-- The death-detection block of both combat and win-wait updates (lines
602-607 and 651-655): snapshot the alive bullets and ships, run
`group.update`, and report the new state together with the sprites that died
during the update. -/
def died_update (env : Env) (elapsed : Int) (g : GState) :
    GState × List Blt × List Tgt :=
  let preB := aliveBulletIds g
  let preS := aliveShipIds g
  let g2 := groupUpdate env elapsed g
  (g2, g2.bullets.filter (fun b => !b.alive && preB.contains b.bid),
       g2.targets.filter (fun t => !t.shipAlive && preS.contains t.tid))

/-- Combat's death block: detect deaths, then spawn their explosions. -/
def deaths_block (env : Env) (elapsed : Int) (g : GState) : GState :=
  let du := died_update env elapsed g
  spawn_explosions_from_deaths du.2.1 du.2.2 du.1

/-- Pointing the player at the locked target (lines 612-615), even at one no
longer in the group. -/
def lock_angle (env : Env) (cfg : Cfg) (g : GState) : GState :=
  match g.locked with
  | some tid =>
    match findTgt g tid with
    | some t => { g with playerAngle := env.angleTo cfg.playerPos t.shipPos }
    | none => g
  | none => g

/-- The phases of `Gameplay.update_gameplay` (lines 598-615) before the
win-or-combat branch: conditional spawn, out-of-bounds spark removal, death
detection around `group.update`, explosion spawning and materialization, and
pointing the player at the locked target. -/
def update_gameplay_core (env : Env) (cfg : Cfg) (elapsed : Int) (g : GState) :
    GState :=
  lock_angle env cfg
    (spawn_explosions_from_cooldowns
      (deaths_block env elapsed
        (remove_sparks_outofbounds env
          (if needs_word_spawn g then spawn_word env cfg g else g))))

/-- The per-ship loop of `update_gameplay` (lines 624-648) over the snapshot
of alive ships: move each ship toward the player, then, when the shared
`'player-hit'` cooldown is ready and the ship touches the player, kill the
ship and its text, re-arm the cooldown, decrement health — pushing the
death menu at exactly zero — and `break`. -/
def shipCollisionLoop (env : Env) (cfg : Cfg) :
    List Nat → GState → GState × List TEv
  | [], g => (g, [])
  | tid :: rest, g =>
    match findTgt g tid with
    | none => shipCollisionLoop env cfg rest g
    | some t =>
      let newPos := env.moveShip t.shipPos cfg.playerPos
      let g := { g with targets :=
                   updTgtById g.targets tid (fun t => { t with shipPos := newPos }) }
      if decide (cdGet g.cooldowns CKey.kPlayerHit ≤ 0)
          && env.collides newPos cfg.playerPos then
        let g := { g with
          targets := updTgtById g.targets tid
            (fun t => { t with shipAlive := false, textAlive := false }),
          cooldowns := cdSet g.cooldowns CKey.kPlayerHit 1000,
          playerHealth := g.playerHealth - 1 }
        if g.playerHealth = 0 then (g, [TEv.pushE Scn.deathS]) else (g, [])
      else shipCollisionLoop env cfg rest g

/-- Source `Gameplay.update_gameplay` (lines 598-648): after the core phases, either
transition to the wait-for-animations sub-state (when no enemy ship is alive
and `is_win_state` holds) or run the ship movement/collision loop. -/
def update_gameplay (env : Env) (cfg : Cfg) (elapsed : Int) (g : GState) :
    GState × List TEv :=
  let g := update_gameplay_core env cfg elapsed g
  let ships := aliveShipIds g
  if ships.isEmpty && is_win_state g then
    ({ g with playerAngle := 90,
              updatestack := g.updatestack.dropLast ++ [SubU.winwaitU] }, [])
  else
    shipCollisionLoop env cfg ships g

/-- Source `Gameplay.check_win_state` (lines 406-422): when the sample is exhausted
and `is_win_state` holds, clear the deferred explosions, then either push the
victory menu (after the last level) or advance to the next level and
re-enter.  `len(self.wordbag)` on an unset sample would raise. -/
def check_win_state (cfg : Cfg) (g : GState) : GState × List TEv :=
  match wbLen g.wordbag with
  | none => ({ g with crashed := true }, [])
  | some n =>
    if n = 0 && is_win_state g then
      let g := { g with cooldowns := cdClearExpl g.cooldowns, expls := [] }
      if g.level + 1 = cfg.levels.length then
        (g, [TEv.pushE Scn.winS])
      else
        let g := { g with paused := false, level := g.level + 1 }
        (gameplayEnter cfg g, [])
    else (g, [])

/-- Win-wait's death block (lines 651-657): like combat's, but the
out-of-bounds spark removal runs after `group.update`, between death
detection and explosion spawning. -/
def winwait_deaths_block (env : Env) (elapsed : Int) (g : GState) : GState :=
  let du := died_update env elapsed g
  spawn_explosions_from_deaths du.2.1 du.2.2 (remove_sparks_outofbounds env du.1)

/-- The phases of `Gameplay.update_gameplay_wait_for_animations` (lines
650-659) before `check_win_state`.  No spawning, no collisions, no ship
movement. -/
def winwait_core (env : Env) (elapsed : Int) (g : GState) : GState :=
  spawn_explosions_from_cooldowns (winwait_deaths_block env elapsed g)

/-- Source `Gameplay.update_gameplay_wait_for_animations` (lines 650-659): the death
and explosion phases followed by `check_win_state`. -/
def update_gameplay_wait_for_animations (env : Env) (cfg : Cfg) (elapsed : Int)
    (g : GState) : GState × List TEv :=
  check_win_state cfg (winwait_core env elapsed g)

/-- Source `Gameplay.update_intro` (lines 580-596): advance the group and the banner
timeline.  `readysprite.time` grows by 0.02 per call and the intro exits at
3.0; the timeline is kept in fiftieths, so the exit threshold is 150.  The
banner's interpolated rect is purely visual and not modelled. -/
def update_intro (env : Env) (elapsed : Int) (g : GState) : GState :=
  let g := groupUpdate env elapsed g
  let g := { g with introTime := g.introTime + 1 }
  if 150 ≤ g.introTime then { g with updatestack := g.updatestack.dropLast }
  else g

/-- Source `Gameplay.update` (lines 577-578): run the top of the update stack. -/
def gameplayUpdate (env : Env) (cfg : Cfg) (elapsed : Int) (g : GState) :
    GState × List TEv :=
  match g.updatestack.getLast? with
  | some SubU.combatU => update_gameplay env cfg elapsed g
  | some SubU.introU => (update_intro env elapsed g, [])
  | some SubU.winwaitU => update_gameplay_wait_for_animations env cfg elapsed g
  | none => ({ g with crashed := true }, [])

/-! ## The scene stack and the engine loop -/

/-- Frame inputs: gameplay keydowns (escape or a character for `fire`), and a
click/confirm on a menu button whose callback is `popstate` (Resume on the
pause menu, Restart on the in-combat death menu). -/
inductive Inp where
  | escKey : Inp
  | charKey : Char → Inp
  | menuPopClick : Inp
deriving DecidableEq, Repr

/-- Dispatching one event to the active scene's `handle`.  Gameplay
(`on_keydown`, lines 509-519): escape sets the pause flag and posts a push of
the pause menu; any other key fires its character.  Menus: a click on a
`popstate` button posts a pop. -/
def dispatchInput (cfg : Cfg) (e : Eng) (i : Inp) : Eng :=
  match e.stack.getLast? with
  | some Scn.gameplayS =>
    match i with
    | Inp.escKey => { e with g := { e.g with paused := true },
                             queue := e.queue ++ [TEv.pushE Scn.pauseS] }
    | Inp.charKey c =>
      let r := fire cfg c e.g
      { e with g := r.1, queue := e.queue ++ r.2 }
    | Inp.menuPopClick => e
  | some _ =>
    match i with
    | Inp.menuPopClick => { e with queue := e.queue ++ [TEv.popE] }
    | _ => e
  | none => e

/-- One transition event applied by `StateManager` (lines 148-161).  Every
scene's `exit` here is the base-class no-op; `enter` matters only for
gameplay.  The menus' `enter` (mouse and hover setup) has no modelled
effect. -/
def applyTEv (cfg : Cfg) (e : Eng) (ev : TEv) : Eng :=
  match ev with
  | TEv.popE =>
    match e.stack.getLast? with
    | none => e
    | some _ =>
      let stack := e.stack.dropLast
      match stack.getLast? with
      | some Scn.gameplayS => { e with stack := stack, g := gameplayEnter cfg e.g }
      | _ => { e with stack := stack }
  | TEv.pushE s =>
    let e := { e with stack := e.stack ++ [s] }
    if s = Scn.gameplayS then { e with g := gameplayEnter cfg e.g } else e

/-- Source `StateManager.update` (lines 162-170): drain the queued transition events
in order; other events stay in the pygame queue for the engine's own
dispatch, which the model passes separately as frame inputs. -/
def state_manager_update (cfg : Cfg) (e : Eng) : Eng :=
  e.queue.foldl (applyTEv cfg) { e with queue := [] }

/-- One iteration of `Engine.run` (lines 182-202): resolve transitions, stop
on an empty stack, dispatch the frame's input events to the active scene,
decrement every positive cooldown entry by `elapsed`, then run the active
scene's `update`.  Drawing has no state effect.  A crashed game stays put. -/
def engineFrame (env : Env) (cfg : Cfg) (elapsed : Int) (inps : List Inp)
    (e : Eng) : Eng :=
  if e.g.crashed then e else
  let e := state_manager_update cfg e
  match e.stack.getLast? with
  | none => e
  | some top =>
    let e := inps.foldl (dispatchInput cfg) e
    let e := { e with g := { e.g with cooldowns := cdTick elapsed e.g.cooldowns } }
    match top with
    | Scn.gameplayS =>
      let r := gameplayUpdate env cfg elapsed e.g
      { e with g := r.1, queue := e.queue ++ r.2 }
    | _ => e

/-- Run the engine over a script of frames, each an `(elapsed, inputs)`
pair. -/
def runEngine (env : Env) (cfg : Cfg) : List (Int × List Inp) → Eng → Eng
  | [], e => e
  | f :: rest, e => runEngine env cfg rest (engineFrame env cfg f.1 f.2 e)

/-- Source `Gameplay.__init__` (lines 377-394).  `max_nsprites` and `locked` are
first assigned inside `reset()`; `0`/`none` stand for the not-yet-set
attributes, and every path into the update routines has passed `reset`. -/
def initGameplay (words : List String) (rng : List Nat) : GState :=
  { wordbag := { words := words, sample := none }, cooldowns := [],
    targets := [], bullets := [], sparks := [], expls := [],
    playerHealth := 3, playerAngle := 90, locked := none,
    maxNsprites := 0, paused := false, level := 0, damage_on_miss := false,
    updatestack := [], introTime := 0, rng := rng, nextId := 0,
    crashed := false }

/-- Source `start(skip_mainmenu=True)`: a fresh gameplay scene is queued for push
onto an empty stack before the engine loop begins. -/
def initEng (words : List String) (rng : List Nat) : Eng :=
  { stack := [], g := initGameplay words rng, queue := [TEv.pushE Scn.gameplayS] }

/-! ## Concrete environments, configurations and trace scripts

These instantiate the abstracted float geometry for the executable
counterexample traces.  `envT` teleports nothing: ships stay where they are,
sparks leave the play space immediately, collision is exact position
equality. -/

/-- Trace environment: stationary ships, instantly out-of-bounds sparks,
collision on exact position coincidence, constant 40x20 text rects. -/
def envT : Env :=
  { textRect := fun _ => (40, 20)
    moveShip := fun s _ => s
    moveSpark := fun _ _ p => p
    oobSpark := fun _ => true
    collides := fun a b => decide (a = b)
    knock := fun _ s => s
    moveBullet := fun o _ _ => o
    angleTo := fun _ _ => 0 }

/-- Trace environment with no collisions at all. -/
def envW : Env := { envT with collides := fun _ _ => false }

/-- Trace environment whose ships drift one pixel toward positive x each
frame. -/
def envD : Env := { envT with moveShip := fun s _ => (s.1 + 1, s.2) }

/-- A spawn area degenerate to the single point `(100, 200)`: every spawned
target lands with its center there. -/
def spawnAt100200 : PRect := { x := 100, y := 200, w := 0, h := 0 }

/-- Config for the health trace: four one-word waves' worth of sample in one
level, spawn point on top of the player. -/
def cfgHealth : Cfg :=
  { levels := [(4, fun _ => true)], spawn_area := spawnAt100200,
    playerPos := (100, 200), skip_intro := true }

/-- The health-bug script: three frames in which a freshly spawned enemy
stands on the player (one collision each, gated by the 1000 cooldown and
1000 elapsed per frame), with escape pressed on the frame of the third,
health-zeroing collision; then the death menu and the pause menu are
dismissed in turn; on resumption a fourth enemy spawns and collides again. -/
def healthScript : List (Int × List Inp) :=
  [(1000, []), (1000, []), (1000, [Inp.escKey]),
   (1000, [Inp.menuPopClick]), (1000, [Inp.menuPopClick]), (1000, [])]

def healthFinal : Eng :=
  runEngine envT cfgHealth healthScript (initEng ["aa", "bb", "cc", "dd"] [])

/-- Config for the win-condition traces: a single one-word level. -/
def cfgWin : Cfg :=
  { levels := [(1, fun _ => true)], spawn_area := spawnAt100200,
    playerPos := (100, 700), skip_intro := true }

/-- Trace A (win condition): spawn the only word "ab", type both letters in
one frame, let the bullets land and the resulting sparks leave; 601 ms after
the spawn the pool is empty, nothing is alive, and the spawn timer still has
399 ms to run. -/
def winTraceA : Eng :=
  runEngine envW (cfgWin)
    [(1, []), (1, [Inp.charKey 'a', Inp.charKey 'b']), (500, []), (100, [])]
    (initEng ["ab"] [])

/-- Trace B (win condition): the word "abbb" is typed so that the last bullet
of the volley is still in flight when the level completes. -/
def winTraceB : Eng :=
  runEngine envW (cfgWin)
    [(1, []), (399, [Inp.charKey 'a']), (300, []), (200, [Inp.charKey 'b']),
     (98, [Inp.charKey 'b']), (1, [Inp.charKey 'b']), (401, []), (1, []),
     (1, [])]
    (initEng ["abbb"] [])

/-- Config and trace for the stale-lock counterexample: the enemy spawns two
pixels left of the player and drifts right one pixel per frame; the player
locks it by typing its first letter on the second frame, and it dies by
collision during that same frame's update. -/
def cfgLock : Cfg :=
  { levels := [(1, fun _ => true)], spawn_area := spawnAt100200,
    playerPos := (102, 200), skip_intro := true }

def lockFinal : Eng :=
  runEngine envD cfgLock [(1, []), (1, [Inp.charKey 'a']), (1, [])]
    (initEng ["ab"] [])

/-- Trace for the empty-text-but-alive counterexample: the one-letter word
"a" is fully typed; the target survives with empty text until the bullet
lands. -/
def emptyTextFinal : Eng :=
  runEngine envW (cfgWin) [(1, []), (1, [Inp.charKey 'a'])]
    (initEng ["a"] [])

/-- Config and trace for the overlapping-spawn counterexample: two words
spawned 1000 ms apart with an identical random stream land on the identical
rect. -/
def cfgSpawn : Cfg :=
  { levels := [(2, fun _ => true)], spawn_area := { x := 0, y := 0, w := 200, h := 100 },
    playerPos := (100, 700), skip_intro := true }

def spawnFinal : Eng :=
  runEngine envW cfgSpawn [(1, []), (1000, [])] (initEng ["aa", "bb"] [])

/-- Pause/resume snapshots: `pauseE2` is the state at the end of the frame in
which escape was pressed (the pause menu is pushed, unresolved, at the head of
the queue — the gameplay state it covers is exactly this one); `pauseE3` is
one 1 ms frame later with the pause menu active and Resume clicked;
`pauseResumed` is the gameplay state right after the queued pop resolves. -/
def cfgPause : Cfg :=
  { levels := [(1, fun _ => true)], spawn_area := { x := 0, y := 0, w := 200, h := 100 },
    playerPos := (100, 700), skip_intro := true }

def pauseE2 : Eng :=
  runEngine envW cfgPause [(1, []), (1, [Inp.escKey])] (initEng ["ab"] [])

def pauseE3 : Eng :=
  runEngine envW cfgPause [(1, [Inp.menuPopClick])] pauseE2

def pauseResumed : Eng := state_manager_update cfgPause pauseE3

/-- One further frame from the end of trace A, showing that the tick
evaluated at the claimed win condition does not leave Combat. -/
def winTraceA2 : Eng := engineFrame envW cfgWin 1 [] winTraceA

/-- The Combat-to-WinWait condition exactly as the claim words it: "the word
pool is empty AND the spawn timer is not ready AND no Target or Spark is
alive", with "ready" read per the spec's Timer Registry contract (ready iff
remaining ≤ 0, so "not ready" is a strictly positive remainder).  This
definition follows the claim's words, for comparison against the source's
`is_win_state`. -/
def claimCombatWinCond (g : GState) : Bool :=
  !wbBool g.wordbag && decide (0 < cdGet g.cooldowns CKey.kSpawn) &&
  (aliveTexts g).isEmpty && (aliveShips g).isEmpty && g.sparks.isEmpty

/-- A minimal combat-phase gameplay state used to instantiate hypotheses of
the general theorems. -/
def gCombatSmall : GState :=
  { wordbag := { words := [], sample := some [] }, cooldowns := [],
    targets := [], bullets := [], sparks := [], expls := [],
    playerHealth := 3, playerAngle := 90, locked := none, maxNsprites := 3,
    paused := false, level := 0, damage_on_miss := false,
    updatestack := [SubU.combatU], introTime := 0, rng := [], nextId := 0,
    crashed := false }

/-- A target with one remaining character, no longer in the group, used to
witness the stale-lock behaviour of `fire`. -/
def tStale : Tgt :=
  { tid := 7, text := ['b'], textAlive := false, shipAlive := false,
    shipPos := (0, 0), spawnRect := { x := 0, y := 0, w := 40, h := 20 } }

/-- A gameplay state whose lock points at the dead target `tStale`. -/
def gStale : GState := { gCombatSmall with targets := [tStale], locked := some 7 }

/-- A combat state that is due to spawn a word. -/
def gSpawnable : GState :=
  { gCombatSmall with wordbag := { words := ["ab"], sample := some ["ab"] } }

/-- An alive target whose text has been fully typed. -/
def tEmptyText : Tgt :=
  { tid := 3, text := [], textAlive := true, shipAlive := true,
    shipPos := (0, 0), spawnRect := { x := 0, y := 0, w := 1, h := 1 } }

/-- A bullet in flight toward `tEmptyText`. -/
def bAtEmpty : Blt :=
  { bid := 9, targetId := 3, acc := 0, origPos := (0, 0), pos := (0, 0),
    alive := true }

/-! # Theorems -/

/-! ## Timer registry (C4) -/

/-- How one engine tick acts on one registry entry: a positive remainder is
decremented by the full elapsed time, everything else is untouched. -/
theorem cdGet_cdTick (cd : Cooldowns) (k : CKey) (e : Int) :
    cdGet (cdTick e cd) k
      = if 0 < cdGet cd k then cdGet cd k - e else cdGet cd k := by
  induction cd with
  | nil => simp [cdGet, cdTick]
  | cons q rest ih =>
    obtain ⟨qk, qv⟩ := q
    by_cases hk : qk = k
    · subst hk
      by_cases hv : qv > 0 <;> simp [cdGet, cdTick, List.find?, hv]
    · by_cases hv : qv > 0 <;>
        simpa [cdGet, cdTick, List.find?, hk, hv] using ih

/-- C4, the claim as stated: the decrement is claimed to be "clamped so that
it does not go below the value that represents ready" (0); but an entry of 5
ticked with elapsed 16 lands at -11, strictly below the ready value. -/
theorem C4_counterexample :
    cdGet (cdTick 16 [(CKey.kSpawn, 5)]) CKey.kSpawn = -11 ∧
    cdGet (cdTick 16 [(CKey.kSpawn, 5)]) CKey.kSpawn < 0 := by decide

/-- C4 amended: on every engine frame, each registry entry with remaining > 0
is decremented by the full elapsed time — without clamping, so it may
overshoot below zero — and entries with remaining ≤ 0 are left unchanged
(hence no entry is decremented more than once past the ready threshold). -/
theorem C4_amended (cd : Cooldowns) (k : CKey) (e : Int) :
    (0 < cdGet cd k → cdGet (cdTick e cd) k = cdGet cd k - e) ∧
    (cdGet cd k ≤ 0 → cdGet (cdTick e cd) k = cdGet cd k) := by
  refine ⟨fun h => ?_, fun h => ?_⟩ <;> rw [cdGet_cdTick]
  · rw [if_pos h]
  · rw [if_neg (by omega)]

theorem C4_amended_witness :
    (0 < cdGet [(CKey.kSpawn, 5)] CKey.kSpawn ∧
      cdGet (cdTick 3 [(CKey.kSpawn, 5)]) CKey.kSpawn
        = cdGet [(CKey.kSpawn, 5)] CKey.kSpawn - 3) ∧
    (cdGet [(CKey.kPlayerHit, 0)] CKey.kPlayerHit ≤ 0 ∧
      cdGet (cdTick 3 [(CKey.kPlayerHit, 0)]) CKey.kPlayerHit
        = cdGet [(CKey.kPlayerHit, 0)] CKey.kPlayerHit) :=
  ⟨⟨by decide, (C4_amended [(CKey.kSpawn, 5)] CKey.kSpawn 3).1 (by decide)⟩,
   ⟨by decide, (C4_amended [(CKey.kPlayerHit, 0)] CKey.kPlayerHit 3).2 (by decide)⟩⟩

/-! ## Word pool sampling (C7, C10) -/

/-- Source `pickIdx` removes exactly the picked element: the original list is a
permutation of the pick consed onto the remainder. -/
theorem pickIdx_perm (l : List String) : ∀ (i : Nat) (p : String × List String),
    pickIdx l i = some p → l.Perm (p.1 :: p.2) := by
  induction l with
  | nil => intro i p h; simp [pickIdx] at h
  | cons a rest ih =>
    intro i p h
    cases i with
    | zero =>
      simp [pickIdx] at h
      cases h
      exact List.Perm.refl _
    | succ n =>
      rw [pickIdx, Option.map_eq_some'] at h
      obtain ⟨q, hq, rfl⟩ := h
      exact ((ih n q hq).cons a).trans (List.Perm.swap _ _ _)

/-- Source `pickIdx` succeeds on every in-range index. -/
theorem pickIdx_lt (l : List String) : ∀ i, i < l.length →
    ∃ p, pickIdx l i = some p := by
  induction l with
  | nil => intro i h; simp at h
  | cons a rest ih =>
    intro i h
    cases i with
    | zero => exact ⟨(a, rest), rfl⟩
    | succ n =>
      obtain ⟨q, hq⟩ := ih n (by simpa using h)
      exact ⟨(q.1, a :: q.2), by simp [pickIdx, hq]⟩

/-- Sampling without replacement: when `k` is at most the population size the
sample has exactly `k` elements, they come from the population, and a
duplicate-free population yields a duplicate-free sample. -/
theorem sampleK_spec : ∀ (k : Nat) (l : List String) (rng : List Nat),
    k ≤ l.length →
    (sampleK l k rng).length = k ∧ (∀ w ∈ sampleK l k rng, w ∈ l) ∧
    (l.Nodup → (sampleK l k rng).Nodup) := by
  intro k
  induction k with
  | zero => intro l rng _; simp [sampleK]
  | succ k ih =>
    intro l rng h
    have hlen : 0 < l.length := by omega
    obtain ⟨p, hp⟩ := pickIdx_lt l _ (Nat.mod_lt (rng.headD 0) hlen)
    have hperm := pickIdx_perm l _ p hp
    have hlp : l.length = p.2.length + 1 := by
      simpa using hperm.length_eq
    obtain ⟨ih1, ih2, ih3⟩ := ih p.2 rng.tail (by omega)
    rw [sampleK, hp]
    refine ⟨by simp [ih1], ?_, ?_⟩
    · intro w hw
      rcases List.mem_cons.mp hw with hw | hw
      · exact hperm.symm.subset (hw ▸ List.mem_cons_self _ _)
      · exact hperm.symm.subset (List.mem_cons_of_mem _ (ih2 w hw))
    · intro hl
      have hnd := hperm.nodup hl
      rw [List.nodup_cons] at hnd ⊢
      exact ⟨fun hmem => hnd.1 (ih2 _ hmem), ih3 hnd.2⟩

/-- C7: for every predicate and every size `k` at most the eligible count,
`randomize` succeeds and installs a sample of exactly `k` distinct words all
satisfying the predicate, computed from the vocabulary, the predicate, the
size and the random stream alone — so it entirely replaces whatever sample
was installed before; when `k` exceeds the eligible count it fails
(`random.sample` raises `ValueError`), modelled as `none`. -/
theorem C7_randomize (words : List String) (s : Option (List String)) (k : Nat)
    (p : String → Bool) (rng : List Nat) :
    (k ≤ ((words.filter p).dedup).length →
      randomize { words := words, sample := s } k p rng
          = some { words := words,
                   sample := some (sampleK ((words.filter p).dedup) k rng) } ∧
      (sampleK ((words.filter p).dedup) k rng).length = k ∧
      (sampleK ((words.filter p).dedup) k rng).Nodup ∧
      (∀ w ∈ sampleK ((words.filter p).dedup) k rng, p w = true)) ∧
    (((words.filter p).dedup).length < k →
      randomize { words := words, sample := s } k p rng = none) := by
  constructor
  · intro h
    obtain ⟨h1, h2, h3⟩ := sampleK_spec k ((words.filter p).dedup) rng h
    refine ⟨by simp [randomize, h], h1, h3 (List.nodup_dedup _), ?_⟩
    · intro w hw
      have hmem := h2 w hw
      rw [List.mem_dedup] at hmem
      exact (List.mem_filter.mp hmem).2
  · intro h
    simp only [randomize]
    rw [if_neg (by omega)]

theorem C7_randomize_witness :
    (2 ≤ (((["aa", "bb", "cc"] : List String).filter (fun _ => true)).dedup).length) ∧
    randomize { words := ["aa", "bb", "cc"], sample := some ["zz"] } 2
        (fun _ => true) [0, 1]
      = some { words := ["aa", "bb", "cc"],
               sample := some (sampleK (((["aa", "bb", "cc"] : List String).filter
                 (fun _ => true)).dedup) 2 [0, 1]) } :=
  ⟨by decide,
   ((C7_randomize ["aa", "bb", "cc"] (some ["zz"]) 2 (fun _ => true) [0, 1]).1
     (by decide)).1⟩

/-- C10: a freshly constructed `Wordbag` (its `_sample` is `None`) evaluates
false, and both `pop()` and `len()` raise rather than returning a word or a
size; the unset sample is a distinct state from an installed empty sample,
whose length does report 0. -/
theorem C10_fresh_wordbag (words : List String) :
    wbBool { words := words, sample := none } = false ∧
    wbLen { words := words, sample := none } = none ∧
    wbPop { words := words, sample := none } = none ∧
    ({ words := words, sample := none } : Wordbag).sample
      ≠ ({ words := words, sample := some [] } : Wordbag).sample ∧
    wbLen { words := words, sample := some [] } = some 0 :=
  ⟨rfl, rfl, rfl, by simp, rfl⟩

/-! ## Explosions (C6) -/

theorem drawSparkArgs_length (n : Nat) (rng : List Nat) :
    (drawSparkArgs n rng).1.length = n := by
  induction n generalizing rng with
  | zero => simp [drawSparkArgs]
  | succ n ih => simp [drawSparkArgs, ih]

/-- The spark group built by `Explosion.__init__` has one spark per distinct
drawn argument tuple. -/
theorem explosion_sparks_length (center : Pos) (n eid sid : Nat)
    (rng : List Nat) :
    (Explosion.create center n eid sid rng).1.sparks.length
      = ((drawSparkArgs n rng).1.dedup).length := by
  simp [Explosion.create]

/-- Writing a key always makes it readable with the written value. -/
theorem cdGet_cdSet (cd : Cooldowns) (k : CKey) (v : Int) :
    cdGet (cdSet cd k v) k = v := by
  unfold cdSet
  split
  case isTrue h =>
    induction cd with
    | nil => simp at h
    | cons q rest ih =>
      by_cases hk : q.1 = k
      · simp [cdGet, List.find?, hk]
      · have h' : rest.any (fun p => decide (p.1 = k)) := by
          simpa [hk] using h
        simpa [cdGet, List.find?, hk] using ih h'
  case isFalse h =>
    induction cd with
    | nil => simp [cdGet, List.find?]
    | cons q rest ih =>
      have hk : ¬ q.1 = k := by
        intro hq
        exact h (by simp [List.any_cons, hq])
      have h' : ¬ rest.any (fun p => decide (p.1 = k)) := by
        intro hr
        exact h (by simp [List.any_cons, hr])
      simpa [cdGet, List.find?, hk] using ih h'

/-- One step of the materialization fold never touches the registry or the
explosion list. -/
theorem explCooldownStep_fields (g : GState) (ex : Explosion) :
    (explCooldownStep g ex).cooldowns = g.cooldowns ∧
    (explCooldownStep g ex).expls = g.expls := by
  unfold explCooldownStep
  split <;> exact ⟨rfl, rfl⟩

theorem fromCooldowns_fold_cooldowns (l : List Explosion) (g : GState) :
    (l.foldl explCooldownStep g).cooldowns = g.cooldowns := by
  induction l generalizing g with
  | nil => rfl
  | cons ex rest ih =>
    rw [List.foldl_cons, ih]
    exact (explCooldownStep_fields g ex).1

theorem fromCooldowns_fold_mem (l : List Explosion) (g : GState) (s : Spk)
    (h : s ∈ g.sparks) :
    s ∈ (l.foldl explCooldownStep g).sparks := by
  induction l generalizing g with
  | nil => exact h
  | cons ex rest ih =>
    rw [List.foldl_cons]
    apply ih
    unfold explCooldownStep
    split
    · exact List.mem_append_left _ h
    · exact h

/-- Adding a group of sparks makes each of their identities present. -/
theorem addSparks_present (g : GState) (sp : List Spk) (s : Spk) (h : s ∈ sp) :
    ∃ s2 ∈ (addSparks g sp).sparks, s2.sid = s.sid := by
  by_cases hp : g.sparks.any (fun t => decide (t.sid = s.sid))
  · obtain ⟨s2, hs2, he⟩ := List.any_eq_true.mp hp
    exact ⟨s2, List.mem_append_left _ hs2, by simpa using he⟩
  · refine ⟨s, List.mem_append_right _ ?_, rfl⟩
    rw [List.mem_filter]
    refine ⟨h, ?_⟩
    simpa using hp

/-- C6, the claim as stated: an explosion constructed with spark count 2 can
materialize into a single spark — the argument draws land in a set, and with
this random stream both draws coincide. -/
theorem C6_counterexample :
    (Explosion.create (0, 0) 2 0 1 []).1.sparks.length = 1 ∧
    ¬ (Explosion.create (0, 0) 2 0 1 []).1.sparks.length = 2 := by decide

/-- C6 amended: a constructed explosion holds one spark per distinct drawn
argument tuple — at most its spark count, with equality exactly when no
duplicate tuple was drawn; an explosion from an enemy-ship death is deferred:
it is registered with cooldown 500 and contributes no sparks at death time;
and `spawn_explosions_from_cooldowns` leaves the state untouched while every
registered explosion's timer is still positive, but once an explosion's timer
is ready its sparks' identities all enter the group (the source's
already-materialized check compares group sprites with the `Explosion` object
itself and thus never suppresses the re-add, which is idempotent). -/
theorem C6_amended (center : Pos) (n eid sid : Nat) (rng : List Nat) :
    ((Explosion.create center n eid sid rng).1.sparks.length
        = ((drawSparkArgs n rng).1.dedup).length ∧
      (Explosion.create center n eid sid rng).1.sparks.length ≤ n ∧
      ((drawSparkArgs n rng).1.Nodup →
        (Explosion.create center n eid sid rng).1.sparks.length = n)) ∧
    (∀ (t : Tgt) (g : GState),
      (spawn_explosions_from_deaths [] [t] g).sparks = g.sparks ∧
      (spawn_explosions_from_deaths [] [t] g).expls
        = g.expls
            ++ [(Explosion.create t.shipPos 600 g.nextId (g.nextId + 1) g.rng).1] ∧
      cdGet (spawn_explosions_from_deaths [] [t] g).cooldowns
          (CKey.kExpl g.nextId) = 500) ∧
    (∀ g : GState,
      (∀ ex ∈ g.expls, 0 < cdGet g.cooldowns (CKey.kExpl ex.eid)) →
      spawn_explosions_from_cooldowns g = g) ∧
    (∀ (g : GState) (ex : Explosion), ex ∈ g.expls →
      cdGet g.cooldowns (CKey.kExpl ex.eid) ≤ 0 →
      ∀ s ∈ ex.sparks,
        ∃ s2 ∈ (spawn_explosions_from_cooldowns g).sparks, s2.sid = s.sid) := by
  refine ⟨⟨explosion_sparks_length center n eid sid rng, ?_, ?_⟩, ?_, ?_, ?_⟩
  · rw [explosion_sparks_length]
    calc ((drawSparkArgs n rng).1.dedup).length
        ≤ (drawSparkArgs n rng).1.length :=
          (List.dedup_sublist _).length_le
      _ = n := drawSparkArgs_length n rng
  · intro hnd
    rw [explosion_sparks_length, List.dedup_eq_self.mpr hnd,
      drawSparkArgs_length]
  · intro t g
    refine ⟨rfl, rfl, ?_⟩
    exact cdGet_cdSet _ _ _
  · intro g h
    show g.expls.foldl explCooldownStep g = g
    have key : ∀ (l : List Explosion),
        (∀ ex ∈ l, 0 < cdGet g.cooldowns (CKey.kExpl ex.eid)) →
        l.foldl explCooldownStep g = g := by
      intro l hl
      induction l with
      | nil => rfl
      | cons ex rest ih =>
        have hx := hl ex (List.mem_cons_self _ _)
        have hstep : explCooldownStep g ex = g := by
          unfold explCooldownStep
          apply if_neg
          simp only [groupContainsExplosion, Bool.not_false, Bool.true_and,
            decide_eq_true_eq]
          omega
        rw [List.foldl_cons, hstep]
        exact ih (fun e he => hl e (List.mem_cons_of_mem _ he))
    exact key g.expls h
  · intro g ex hmem hcd s hs
    obtain ⟨l1, l2, hsplit⟩ := List.append_of_mem hmem
    show ∃ s2 ∈ (g.expls.foldl explCooldownStep g).sparks, s2.sid = s.sid
    rw [hsplit, List.foldl_append, List.foldl_cons]
    have hcool := fromCooldowns_fold_cooldowns l1 g
    have hcond : (!groupContainsExplosion (l1.foldl explCooldownStep g) ex
        && decide (cdGet (l1.foldl explCooldownStep g).cooldowns
            (CKey.kExpl ex.eid) ≤ 0)) = true := by
      rw [hcool]
      simp only [groupContainsExplosion, Bool.not_false, Bool.true_and]
      exact decide_eq_true hcd
    have hstep : explCooldownStep (l1.foldl explCooldownStep g) ex
        = addSparks (l1.foldl explCooldownStep g) ex.sparks := if_pos hcond
    rw [hstep]
    obtain ⟨s2, hs2, hsid⟩ :=
      addSparks_present (l1.foldl explCooldownStep g) ex.sparks s hs
    exact ⟨s2, fromCooldowns_fold_mem l2 _ s2 hs2, hsid⟩

theorem C6_amended_witness :
    ((drawSparkArgs 2 [0, 0, 0, 1, 0, 0]).1.Nodup ∧
      (Explosion.create (0, 0) 2 0 1 [0, 0, 0, 1, 0, 0]).1.sparks.length = 2) ∧
    (gCombatSmall.expls = [] ∧
      (∀ ex ∈ gCombatSmall.expls,
        0 < cdGet gCombatSmall.cooldowns (CKey.kExpl ex.eid)) ∧
      spawn_explosions_from_cooldowns gCombatSmall = gCombatSmall) :=
  ⟨⟨by decide,
    ((C6_amended (0, 0) 2 0 1 [0, 0, 0, 1, 0, 0]).1.2.2) (by decide)⟩,
   ⟨rfl, by simp [gCombatSmall], (C6_amended (0, 0) 0 0 0 []).2.2.1 gCombatSmall
      (by simp [gCombatSmall])⟩⟩

/-! ## Field-preservation helpers for the combat phases -/

theorem foldl_inv {α β : Type _} (f : β → α → β) (P : β → Prop)
    (hf : ∀ b a, P b → P (f b a)) :
    ∀ (l : List α) (b : β), P b → P (l.foldl f b) := by
  intro l
  induction l with
  | nil => intro b hb; exact hb
  | cons a rest ih => intro b hb; exact ih _ (hf b a hb)

/-- Source `spawn_word` only touches the bag, the targets, the fresh-id counter, the
random stream, and the spawn timer. -/
theorem spawn_word_ctl (env : Env) (cfg : Cfg) (g : GState) :
    (spawn_word env cfg g).locked = g.locked ∧
    (spawn_word env cfg g).updatestack = g.updatestack ∧
    (spawn_word env cfg g).playerHealth = g.playerHealth := by
  unfold spawn_word
  split <;> exact ⟨rfl, rfl, rfl⟩

/-- Explosion spawning from deaths leaves everything but the spark group, the
explosion registry, the registry timers, the stream and the id counter
alone. -/
theorem sefd_ctl (bs : List Blt) (ts : List Tgt) (g : GState) :
    (spawn_explosions_from_deaths bs ts g).locked = g.locked ∧
    (spawn_explosions_from_deaths bs ts g).updatestack = g.updatestack ∧
    (spawn_explosions_from_deaths bs ts g).targets = g.targets ∧
    (spawn_explosions_from_deaths bs ts g).playerHealth = g.playerHealth ∧
    (spawn_explosions_from_deaths bs ts g).crashed = g.crashed ∧
    (spawn_explosions_from_deaths bs ts g).wordbag = g.wordbag ∧
    (spawn_explosions_from_deaths bs ts g).bullets = g.bullets := by
  unfold spawn_explosions_from_deaths
  refine foldl_inv shipExplStep
    (fun x : GState => x.locked = g.locked ∧ x.updatestack = g.updatestack
      ∧ x.targets = g.targets ∧ x.playerHealth = g.playerHealth
      ∧ x.crashed = g.crashed ∧ x.wordbag = g.wordbag ∧ x.bullets = g.bullets)
    (fun b a hb => hb) ts _
    (foldl_inv bulletExplStep
      (fun x : GState => x.locked = g.locked ∧ x.updatestack = g.updatestack
        ∧ x.targets = g.targets ∧ x.playerHealth = g.playerHealth
        ∧ x.crashed = g.crashed ∧ x.wordbag = g.wordbag ∧ x.bullets = g.bullets)
      (fun b a hb => hb) bs g ⟨rfl, rfl, rfl, rfl, rfl, rfl, rfl⟩)

/-- Materialization from cooldowns only ever adds sparks. -/
theorem sefc_ctl (g : GState) :
    (spawn_explosions_from_cooldowns g).locked = g.locked ∧
    (spawn_explosions_from_cooldowns g).updatestack = g.updatestack ∧
    (spawn_explosions_from_cooldowns g).targets = g.targets ∧
    (spawn_explosions_from_cooldowns g).playerHealth = g.playerHealth ∧
    (spawn_explosions_from_cooldowns g).crashed = g.crashed ∧
    (spawn_explosions_from_cooldowns g).wordbag = g.wordbag ∧
    (spawn_explosions_from_cooldowns g).cooldowns = g.cooldowns ∧
    (spawn_explosions_from_cooldowns g).bullets = g.bullets := by
  unfold spawn_explosions_from_cooldowns
  refine foldl_inv explCooldownStep
    (fun x : GState => x.locked = g.locked ∧ x.updatestack = g.updatestack
      ∧ x.targets = g.targets ∧ x.playerHealth = g.playerHealth
      ∧ x.crashed = g.crashed ∧ x.wordbag = g.wordbag
      ∧ x.cooldowns = g.cooldowns ∧ x.bullets = g.bullets)
    ?_ g.expls g ⟨rfl, rfl, rfl, rfl, rfl, rfl, rfl, rfl⟩
  intro b a hb
  unfold explCooldownStep
  split
  · exact hb
  · exact hb

/-- Source `group.update` does not change the control fields, and the target list
keeps its length (bullets only rewrite entries in place). -/
theorem groupUpdate_ctl (env : Env) (elapsed : Int) (g : GState) :
    (groupUpdate env elapsed g).locked = g.locked ∧
    (groupUpdate env elapsed g).updatestack = g.updatestack ∧
    (groupUpdate env elapsed g).playerHealth = g.playerHealth ∧
    (groupUpdate env elapsed g).crashed = g.crashed ∧
    (groupUpdate env elapsed g).wordbag = g.wordbag ∧
    (groupUpdate env elapsed g).cooldowns = g.cooldowns ∧
    (groupUpdate env elapsed g).targets.length = g.targets.length := by
  refine ⟨rfl, rfl, rfl, rfl, rfl, rfl, ?_⟩
  show (g.bullets.foldl (bulletStep env elapsed) ([], g.targets)).2.length
    = g.targets.length
  refine foldl_inv _
    (fun st : List Blt × List Tgt => st.2.length = g.targets.length) ?_
    g.bullets ([], g.targets) rfl
  intro st b hb
  unfold bulletStep
  split
  · exact hb
  · dsimp only
    split
    · simpa [updTgtById] using hb
    · exact hb

theorem deaths_block_ctl (env : Env) (elapsed : Int) (g : GState) :
    (deaths_block env elapsed g).locked = g.locked ∧
    (deaths_block env elapsed g).updatestack = g.updatestack ∧
    (deaths_block env elapsed g).playerHealth = g.playerHealth ∧
    (deaths_block env elapsed g).crashed = g.crashed ∧
    (deaths_block env elapsed g).wordbag = g.wordbag ∧
    (deaths_block env elapsed g).targets.length = g.targets.length := by
  unfold deaths_block
  obtain ⟨s1, s2, s3, s4, s5, s6, _⟩ := sefd_ctl
    (died_update env elapsed g).2.1 (died_update env elapsed g).2.2
    (died_update env elapsed g).1
  rw [show (died_update env elapsed g).1 = groupUpdate env elapsed g from rfl]
    at s1 s2 s3 s4 s5 s6
  obtain ⟨u1, u2, u3, u4, u5, _, u7⟩ := groupUpdate_ctl env elapsed g
  exact ⟨s1.trans u1, s2.trans u2, s4.trans u3, s5.trans u4, s6.trans u5,
    (congrArg List.length s3).trans u7⟩

theorem lock_angle_ctl (env : Env) (cfg : Cfg) (g : GState) :
    (lock_angle env cfg g).locked = g.locked ∧
    (lock_angle env cfg g).updatestack = g.updatestack ∧
    (lock_angle env cfg g).playerHealth = g.playerHealth ∧
    (lock_angle env cfg g).crashed = g.crashed ∧
    (lock_angle env cfg g).wordbag = g.wordbag ∧
    (lock_angle env cfg g).targets = g.targets := by
  unfold lock_angle
  split
  · split <;> exact ⟨rfl, rfl, rfl, rfl, rfl, rfl⟩
  · exact ⟨rfl, rfl, rfl, rfl, rfl, rfl⟩

/-- The control fields through the whole pre-branch combat pipeline. -/
theorem core_ctl (env : Env) (cfg : Cfg) (elapsed : Int) (g : GState) :
    (update_gameplay_core env cfg elapsed g).locked = g.locked ∧
    (update_gameplay_core env cfg elapsed g).updatestack = g.updatestack := by
  unfold update_gameplay_core
  obtain ⟨l1, l2, _, _, _, _⟩ := lock_angle_ctl env cfg
    (spawn_explosions_from_cooldowns (deaths_block env elapsed
      (remove_sparks_outofbounds env
        (if needs_word_spawn g then spawn_word env cfg g else g))))
  obtain ⟨c1, c2, _, _, _, _, _, _⟩ := sefc_ctl (deaths_block env elapsed
    (remove_sparks_outofbounds env
      (if needs_word_spawn g then spawn_word env cfg g else g)))
  obtain ⟨d1, d2, _, _, _, _⟩ := deaths_block_ctl env elapsed
    (remove_sparks_outofbounds env
      (if needs_word_spawn g then spawn_word env cfg g else g))
  have hif : (if needs_word_spawn g then spawn_word env cfg g else g).locked
        = g.locked ∧
      (if needs_word_spawn g then spawn_word env cfg g else g).updatestack
        = g.updatestack := by
    split
    · exact ⟨(spawn_word_ctl env cfg g).1, (spawn_word_ctl env cfg g).2.1⟩
    · exact ⟨rfl, rfl⟩
  exact ⟨l1.trans (c1.trans (d1.trans hif.1)),
    l2.trans (c2.trans (d2.trans hif.2))⟩

/-- The ship movement/collision loop never touches the lock, the update
stack, or the size of the target list. -/
theorem shipLoop_ctl (env : Env) (cfg : Cfg) : ∀ (l : List Nat) (g : GState),
    (shipCollisionLoop env cfg l g).1.locked = g.locked ∧
    (shipCollisionLoop env cfg l g).1.updatestack = g.updatestack ∧
    (shipCollisionLoop env cfg l g).1.targets.length = g.targets.length := by
  intro l
  induction l with
  | nil => intro g; exact ⟨rfl, rfl, rfl⟩
  | cons tid rest ih =>
    intro g
    unfold shipCollisionLoop
    split
    · exact ih g
    · rename_i t ht
      dsimp only
      split
      · split <;> simp [updTgtById]
      · have hrec := ih { g with targets := updTgtById g.targets tid (fun u =>
          { u with shipPos := env.moveShip t.shipPos cfg.playerPos }) }
        refine ⟨hrec.1, hrec.2.1, hrec.2.2.trans ?_⟩
        simp [updTgtById]

/-! ## Win condition (C1) -/

theorem reset_level (cfg : Cfg) (g : GState) : (reset cfg g).level = g.level := by
  unfold reset
  dsimp only
  cases hk : cfg.levels.get? g.level with
  | none => rfl
  | some kp =>
    dsimp only
    cases hr : randomize g.wordbag kp.1 kp.2 g.rng with
    | none => rfl
    | some wb =>
      dsimp only
      split <;> rfl

theorem gameplayEnter_level (cfg : Cfg) (g : GState) :
    (gameplayEnter cfg g).level = g.level := by
  unfold gameplayEnter
  split
  · exact reset_level cfg g
  · rfl

/-- C1, the claim as stated, refuted twice on reachable runs.  Trace A: after
the last word of the level is destroyed and its sparks leave, the pool is
empty, the spawn timer is still pending (spec-"not ready"), and nothing is
alive — the claimed transition condition holds — yet the tick leaves the
Combat sub-state in place (the source requires the spawn timer to be ready,
`cooldowns[self.spawn_word] <= 0`).  Trace B: WinWait signals level
completion (the victory menu push is queued) while a projectile entity is
still alive, so "no entity at all remains alive" is not required either. -/
theorem C1_counterexample :
    (claimCombatWinCond winTraceA.g = true ∧
      winTraceA.g.updatestack = [SubU.combatU] ∧
      winTraceA2.g.updatestack = [SubU.combatU]) ∧
    (winTraceB.queue = [TEv.pushE Scn.winS] ∧
      (winTraceB.g.bullets.filter (fun b => b.alive)).length = 1) := by
  decide

/-- C1 amended: a Combat tick transitions to WinWait iff, on the state after
the tick's spawn/movement/death/explosion phases, no enemy ship is alive and
`is_win_state` holds — the pool is empty, the spawn timer is ready
(remaining ≤ 0), and no text sprite or spark is alive.  WinWait signals level
completion (level advance or victory push) iff the sample's length is 0 and
the same `is_win_state` holds — a condition indifferent to live
projectiles. -/
theorem C1_amended (env : Env) (cfg : Cfg) (elapsed : Int) (g : GState)
    (h : g.updatestack = [SubU.combatU]) :
    ((update_gameplay env cfg elapsed g).1.updatestack = [SubU.winwaitU] ↔
      ((aliveShipIds (update_gameplay_core env cfg elapsed g)).isEmpty &&
        is_win_state (update_gameplay_core env cfg elapsed g)) = true) ∧
    (∀ gw : GState,
      (((check_win_state cfg gw).1.level = gw.level + 1) ∨
        (check_win_state cfg gw).2 = [TEv.pushE Scn.winS]) ↔
      (wbLen gw.wordbag = some 0 ∧ is_win_state gw = true)) ∧
    (∀ (gw : GState) (bs : List Blt),
      is_win_state { gw with bullets := bs } = is_win_state gw) := by
  refine ⟨?_, ?_, fun gw bs => rfl⟩
  · have hcu := (core_ctl env cfg elapsed g).2
    unfold update_gameplay
    by_cases hc : ((aliveShipIds (update_gameplay_core env cfg elapsed g)).isEmpty
        && is_win_state (update_gameplay_core env cfg elapsed g)) = true
    · rw [if_pos hc]
      simp only [hc, iff_true]
      rw [hcu, h]
      rfl
    · rw [if_neg hc]
      simp only [hc, iff_false]
      rw [(shipLoop_ctl env cfg _ _).2.1, hcu, h]
      simp
  · intro gw
    unfold check_win_state
    cases hn : wbLen gw.wordbag with
    | none =>
      dsimp only
      constructor
      · rintro (hl | he)
        · omega
        · cases he
      · rintro ⟨he, _⟩
        cases he
    | some n =>
      dsimp only
      by_cases hz : n = 0
      · subst hz
        by_cases hwin : is_win_state gw = true
        · rw [if_pos (by simp [hwin])]
          by_cases hl : gw.level + 1 = cfg.levels.length
          · rw [if_pos hl]
            exact ⟨fun _ => ⟨rfl, hwin⟩, fun _ => Or.inr rfl⟩
          · rw [if_neg hl]
            exact ⟨fun _ => ⟨rfl, hwin⟩,
              fun _ => Or.inl (gameplayEnter_level cfg _)⟩
        · rw [if_neg (by simp [hwin])]
          constructor
          · rintro (hl | he)
            · have hl2 : gw.level = gw.level + 1 := hl
              omega
            · cases he
          · rintro ⟨_, hw2⟩
            exact absurd hw2 hwin
      · rw [if_neg (by simp [hz])]
        constructor
        · rintro (hl | he)
          · have hl2 : gw.level = gw.level + 1 := hl
            omega
          · cases he
        · rintro ⟨he, _⟩
          injection he with he
          exact absurd he hz

theorem C1_amended_witness :
    gCombatSmall.updatestack = [SubU.combatU] ∧
    ((update_gameplay envW cfgWin 1 gCombatSmall).1.updatestack
        = [SubU.winwaitU] ↔
      ((aliveShipIds (update_gameplay_core envW cfgWin 1 gCombatSmall)).isEmpty
        && is_win_state (update_gameplay_core envW cfgWin 1 gCombatSmall))
        = true) :=
  ⟨rfl, (C1_amended envW cfgWin 1 gCombatSmall rfl).1⟩

/-! ## Lock release (C3) -/

/-- C3, the claim as stated, refuted on a reachable run: on the second frame
the player locks the target by typing its first letter and the target is then
destroyed by a Target/Player collision during the same frame's update; one
frame later the destroyed target (both sprites dead, one character still
owed) is still the locked target. -/
theorem C3_counterexample :
    lockFinal.g.locked = some 0 ∧
    (findTgt lockFinal.g 0).map (fun t => (t.textAlive, t.shipAlive))
      = some (false, false) ∧
    (findTgt lockFinal.g 0).map (fun t => t.text) = some ['b'] := by
  decide

/-- C3 amended: the combat update never touches the lock — in particular a
collision that kills the locked target leaves the stale lock in place — and
this causes no error: a later matching keystroke on the dead-but-locked
target still consumes its text and emits a projectile (the source guards its
group operations), releasing the lock only when the text empties. -/
theorem C3_amended :
    (∀ (env : Env) (cfg : Cfg) (elapsed : Int) (g : GState),
      (update_gameplay env cfg elapsed g).1.locked = g.locked) ∧
    (∀ (cfg : Cfg) (c : Char) (rest : List Char) (g : GState) (tid : Nat)
        (t : Tgt),
      g.locked = some tid → findTgt g tid = some t → t.text = c :: rest →
      (fire cfg c g).1.crashed = g.crashed ∧
      (fire cfg c g).1.locked = (if rest = [] then none else some tid) ∧
      (fire cfg c g).1.bullets.length = g.bullets.length + 1) := by
  constructor
  · intro env cfg elapsed g
    have hcl := (core_ctl env cfg elapsed g).1
    unfold update_gameplay
    dsimp only
    split
    · exact hcl
    · exact ((shipLoop_ctl env cfg _ _).1).trans hcl
  · intro cfg c rest g tid t h1 h2 h3
    have hnn : ¬ (g.locked = none) := by
      rw [h1]
      exact fun hx => Option.noConfusion hx
    have hacq : fire_acquire c g = g := by
      unfold fire_acquire
      exact if_neg hnn
    unfold fire
    rw [hacq]
    unfold fire_resolve
    rw [h1]
    dsimp only
    rw [h2]
    dsimp only
    rw [h3]
    dsimp only
    rw [if_pos rfl]
    exact ⟨rfl, rfl, by simp⟩

theorem C3_amended_witness :
    (gStale.locked = some 7 ∧ findTgt gStale 7 = some tStale ∧
      tStale.text = 'b' :: []) ∧
    ((fire cfgPause 'b' gStale).1.crashed = gStale.crashed ∧
      (fire cfgPause 'b' gStale).1.locked
        = (if ([] : List Char) = [] then none else some 7) ∧
      (fire cfgPause 'b' gStale).1.bullets.length
        = gStale.bullets.length + 1) :=
  ⟨⟨rfl, by decide, rfl⟩,
   C3_amended.2 cfgPause 'b' [] gStale 7 tStale rfl (by decide) rfl⟩

/-! ## Spawning (C5) -/

theorem needs_wbBool (g : GState) (h : needs_word_spawn g = true) :
    wbBool g.wordbag = true := by
  unfold needs_word_spawn at h
  simp only [Bool.and_eq_true] at h
  exact h.1.2

/-- A truthy bag always pops successfully. -/
theorem wbBool_wbPop (wb : Wordbag) (h : wbBool wb = true) :
    ∃ w wb2, wbPop wb = some (w, wb2) := by
  unfold wbBool at h
  cases hs : wb.sample with
  | none => rw [hs] at h; simp at h
  | some l =>
    rw [hs] at h
    simp only at h
    have hne : l ≠ [] := by
      intro he
      rw [he] at h
      simp at h
    obtain ⟨w, hw⟩ := Option.isSome_iff_exists.mp (List.getLast?_isSome.mpr hne)
    exact ⟨w, { wb with sample := some l.dropLast }, by simp [wbPop, hs, hw]⟩

/-- Pygame's clamp puts a rect that fits inside the clamping area. -/
theorem clampIp_insideOf (r A : PRect) (hw : r.w ≤ A.w) (hh : r.h ≤ A.h) :
    (r.clampIp A).insideOf A := by
  unfold PRect.clampIp PRect.insideOf
  dsimp only
  refine ⟨?_, ?_, ?_, ?_⟩ <;> split_ifs <;> omega

/-- Source `random_location` with no `avoiding` collection (the `spawn_word` call
site) accepts the first random clamped placement. -/
theorem random_location_noavoid (r inside : PRect) (rng : List Nat) :
    random_location r inside [] 1 rng
      = ((r.setCenter (randint inside.x inside.right (rng.headD 0),
            randint inside.y inside.bottom (rng.tail.headD 0))).clampIp inside,
         rng.tail.tail) := by
  simp [random_location]

theorem core_targets_length (env : Env) (cfg : Cfg) (elapsed : Int)
    (g : GState) :
    (update_gameplay_core env cfg elapsed g).targets.length
      = g.targets.length + (if needs_word_spawn g then 1 else 0) := by
  unfold update_gameplay_core
  rw [(lock_angle_ctl env cfg _).2.2.2.2.2, (sefc_ctl _).2.2.1,
    (deaths_block_ctl env elapsed _).2.2.2.2.2]
  rw [show (remove_sparks_outofbounds env
      (if needs_word_spawn g then spawn_word env cfg g else g)).targets
    = (if needs_word_spawn g then spawn_word env cfg g else g).targets from rfl]
  split
  case isTrue hn =>
    obtain ⟨w, wb2, hpop⟩ := wbBool_wbPop g.wordbag (needs_wbBool g hn)
    unfold spawn_word
    rw [hpop]
    simp
  case isFalse hn => simp

/-- C5, the claim as stated, refuted on a reachable run: two words spawned in
consecutive spawn windows with identical random draws land on the very same
rect — both targets are alive and their placement rects overlap, because
`spawn_word` calls `random_location` without any `avoiding` collection. -/
theorem C5_counterexample :
    spawnFinal.g.targets.map (fun t => (t.spawnRect, t.textAlive, t.shipAlive))
      = [({ x := 0, y := 0, w := 40, h := 20 }, true, true),
         ({ x := 0, y := 0, w := 40, h := 20 }, true, true)] ∧
    PRect.colliderect { x := 0, y := 0, w := 40, h := 20 }
      { x := 0, y := 0, w := 40, h := 20 } = true := by
  decide

/-- C5 amended: a Combat tick spawns exactly one new Target iff
`needs_word_spawn` holds — fewer than the maximum concurrent text sprites
alive, the pool non-empty, and the spawn timer ready; the new Target is
placed at a random location clamped inside the spawn zone (with no overlap
avoidance), its ship at the placed rect's center, and the spawn timer is
re-armed to 1000. -/
theorem C5_amended (env : Env) (cfg : Cfg) (elapsed : Int) (g : GState) :
    ((update_gameplay env cfg elapsed g).1.targets.length
        = g.targets.length + (if needs_word_spawn g then 1 else 0)) ∧
    (needs_word_spawn g = true →
      cdGet (spawn_word env cfg g).cooldowns CKey.kSpawn = 1000 ∧
      (∀ (w : String) (wb2 : Wordbag), wbPop g.wordbag = some (w, wb2) →
        (env.textRect w).1 ≤ cfg.spawn_area.w →
        (env.textRect w).2 ≤ cfg.spawn_area.h →
        ∃ t : Tgt, (spawn_word env cfg g).targets = g.targets ++ [t] ∧
          t.spawnRect.insideOf cfg.spawn_area ∧
          t.shipPos = t.spawnRect.center ∧
          t.textAlive = true ∧ t.shipAlive = true)) := by
  constructor
  · unfold update_gameplay
    dsimp only
    split
    · exact core_targets_length env cfg elapsed g
    · exact ((shipLoop_ctl env cfg _ _).2.2).trans
        (core_targets_length env cfg elapsed g)
  · intro hn
    obtain ⟨w0, wb0, hpop0⟩ := wbBool_wbPop g.wordbag (needs_wbBool g hn)
    constructor
    · unfold spawn_word
      rw [hpop0]
      dsimp only
      exact cdGet_cdSet _ _ _
    · intro w wb2 hpop hww hwh
      unfold spawn_word
      rw [hpop]
      dsimp only
      refine ⟨_, rfl, ?_, rfl, rfl, rfl⟩
      rw [random_location_noavoid]
      exact clampIp_insideOf _ _ hww hwh

theorem C5_amended_witness :
    needs_word_spawn gSpawnable = true ∧
    cdGet (spawn_word envT cfgSpawn gSpawnable).cooldowns CKey.kSpawn = 1000 :=
  ⟨by decide, ((C5_amended envT cfgSpawn 1 gSpawnable).2 (by decide)).1⟩

/-! ## Target lifetime (C8) -/

theorem updTgt_text_flags (ts : List Tgt) (tid : Nat) (rest : List Char) :
    (updTgtById ts tid (fun t => { t with text := rest })).map
        (fun t => (t.tid, t.textAlive, t.shipAlive))
      = ts.map (fun t => (t.tid, t.textAlive, t.shipAlive)) := by
  unfold updTgtById
  rw [List.map_map]
  apply List.map_congr_left
  intro x _
  dsimp only [Function.comp]
  split <;> rfl

theorem moveToBack_perm (ts : List Tgt) (tid : Nat) :
    List.Perm (moveToBack ts tid) ts := by
  unfold moveToBack
  have hcong : ts.filter (fun t => decide (t.tid = tid))
      = ts.filter (fun x => !(decide (x.tid ≠ tid))) := by
    apply List.filter_congr
    intro x _
    simp [decide_not]
  rw [hcong]
  exact List.filter_append_perm (fun t => decide (t.tid ≠ tid)) ts

theorem fire_acquire_targets (c : Char) (g : GState) :
    (fire_acquire c g).targets = g.targets := by
  unfold fire_acquire
  split
  · split <;> rfl
  · rfl

/-- Source `fire` never changes which targets are alive: it only rewrites text,
reorders layers and spends health. -/
theorem fire_resolve_perm (cfg : Cfg) (c : Char) (g : GState) :
    List.Perm
      ((fire_resolve cfg c g).1.targets.map
        (fun t => (t.tid, t.textAlive, t.shipAlive)))
      (g.targets.map (fun t => (t.tid, t.textAlive, t.shipAlive))) := by
  unfold fire_resolve
  cases hl : g.locked with
  | none => exact List.Perm.refl _
  | some tid =>
    dsimp only
    cases hf : findTgt g tid with
    | none => exact List.Perm.refl _
    | some t =>
      dsimp only
      cases ht : t.text with
      | nil => exact List.Perm.refl _
      | cons c0 rest =>
        dsimp only
        by_cases hc : c = c0
        · rw [if_pos hc]
          dsimp only
          split
          · refine ((moveToBack_perm _ _).map _).trans ?_
            rw [updTgt_text_flags]
          · rw [updTgt_text_flags]
        · rw [if_neg hc]
          split
          · unfold hit_player
            dsimp only
            split <;> exact List.Perm.refl _
          · exact List.Perm.refl _

/-- A live bullet whose accumulated travel reaches `timetolive` kills a
target with empty text: both the ship and the text sprite leave the
group. -/
theorem bulletStep_kills (env : Env) (elapsed : Int) (st : List Blt × List Tgt)
    (b : Blt) (t : Tgt) (hb : b.alive = true) (hacc : 500 ≤ b.acc + elapsed)
    (hmem : t ∈ st.2) (htid : t.tid = b.targetId) (htext : t.text = []) :
    ∃ t2 ∈ (bulletStep env elapsed st b).2,
      t2.tid = t.tid ∧ t2.textAlive = false ∧ t2.shipAlive = false := by
  unfold bulletStep
  rw [if_neg (by simp [hb])]
  dsimp only
  rw [if_pos hacc]
  unfold updTgtById
  refine ⟨_, List.mem_map_of_mem _ hmem, ?_⟩
  dsimp only
  rw [if_pos htid]
  rw [if_pos htext]
  exact ⟨rfl, rfl, rfl⟩

/-- C8, the claim as stated, refuted on a reachable run: typing the last
letter of the one-letter word leaves the target alive with empty remaining
text (the lock is released, but the kill happens only when the emitted
projectile lands). -/
theorem C8_counterexample :
    (findTgt emptyTextFinal.g 0).map (fun t => (t.text, t.textAlive, t.shipAlive))
      = some ([], true, true) ∧
    emptyTextFinal.g.locked = none ∧
    emptyTextFinal.g.bullets.length = 1 := by
  decide

/-- C8 amended: typing never changes any target's aliveness (`fire` only
consumes text, reorders layers, emits projectiles and releases the lock), so
a fully-typed target stays alive with empty text; the target dies when a
projectile whose travel has reached `timetolive = 500` lands on it while its
text is empty, and only then do both its sprites leave the group. -/
theorem C8_amended :
    (∀ (cfg : Cfg) (c : Char) (g : GState),
      List.Perm
        ((fire cfg c g).1.targets.map
          (fun t => (t.tid, t.textAlive, t.shipAlive)))
        (g.targets.map (fun t => (t.tid, t.textAlive, t.shipAlive)))) ∧
    (∀ (env : Env) (elapsed : Int) (st : List Blt × List Tgt) (b : Blt)
        (t : Tgt),
      b.alive = true → 500 ≤ b.acc + elapsed → t ∈ st.2 →
      t.tid = b.targetId → t.text = [] →
      ∃ t2 ∈ (bulletStep env elapsed st b).2,
        t2.tid = t.tid ∧ t2.textAlive = false ∧ t2.shipAlive = false) := by
  constructor
  · intro cfg c g
    unfold fire
    refine (fire_resolve_perm cfg c (fire_acquire c g)).trans ?_
    rw [fire_acquire_targets]
  · exact bulletStep_kills

theorem C8_amended_witness :
    (bAtEmpty.alive = true ∧ (500 : Int) ≤ bAtEmpty.acc + 500 ∧
      tEmptyText ∈ (([], [tEmptyText]) : List Blt × List Tgt).2 ∧
      tEmptyText.tid = bAtEmpty.targetId ∧ tEmptyText.text = []) ∧
    (∃ t2 ∈ (bulletStep envT 500 ([], [tEmptyText]) bAtEmpty).2,
      t2.tid = tEmptyText.tid ∧ t2.textAlive = false ∧ t2.shipAlive = false) :=
  ⟨⟨rfl, by decide, by decide, rfl, rfl⟩,
   C8_amended.2 envT 500 ([], [tEmptyText]) bAtEmpty tEmptyText rfl (by decide)
     (by decide) rfl rfl⟩

/-! ## Health (C2) -/

/-- C2: the code violates the health invariant on a reachable run.  Script:
freshly spawned enemies stand on the player and collide on three successive
cooldown-separated frames; escape is pressed during the frame of the third,
health-zeroing collision, so the pause-menu push is queued just before the
death-menu push.  Dismissing the death menu (Restart posts a pop) reveals the
pause menu; resuming reveals gameplay, whose `enter()` skips the reset
because the pause flag is still set.  Health is 0 in live combat; the next
collision drives it to -1, and no game-over fires because the source checks
`health == 0`.  The engine is healthy (nothing crashed, gameplay is the
active scene) with negative health. -/
theorem C2_health_goes_negative :
    healthFinal.g.playerHealth = -1 ∧ healthFinal.g.playerHealth < 0 ∧
    healthFinal.g.crashed = false ∧ healthFinal.stack = [Scn.gameplayS] := by
  decide

/-! ## Pause and resume (C9) -/

/-- Dispatching input while a menu scene is active never touches the
gameplay state or the scene stack — menus only post transition events. -/
theorem dispatch_menu_g (cfg : Cfg) : ∀ (inps : List Inp) (e : Eng) (m : Scn),
    e.stack.getLast? = some m → m ≠ Scn.gameplayS →
    (inps.foldl (dispatchInput cfg) e).g = e.g ∧
    (inps.foldl (dispatchInput cfg) e).stack = e.stack := by
  intro inps
  induction inps with
  | nil => intro e m h hm; exact ⟨rfl, rfl⟩
  | cons i rest ih =>
    intro e m h hm
    rw [List.foldl_cons]
    have hstep : (dispatchInput cfg e i).g = e.g ∧
        (dispatchInput cfg e i).stack = e.stack := by
      unfold dispatchInput
      rw [h]
      cases m with
      | gameplayS => exact absurd rfl hm
      | pauseS => cases i <;> exact ⟨rfl, rfl⟩
      | deathS => cases i <;> exact ⟨rfl, rfl⟩
      | winS => cases i <;> exact ⟨rfl, rfl⟩
    obtain ⟨h1, h2⟩ := ih (dispatchInput cfg e i) m (by rw [hstep.2, h]) hm
    exact ⟨h1.trans hstep.1, h2.trans hstep.2⟩

/-- C9, the claim as stated, refuted on a reachable run: escape is pressed,
the pause menu covers gameplay for one 1 ms frame, and Resume pops it.
Entity positions, health, lock, bullets and sparks are restored exactly
(enter() skips the reset), but the pending spawn timer is NOT unchanged: the
engine keeps decrementing the global cooldown registry while the pause menu
is active, so the 999 ms remaining at the moment of pausing resumes as
998 ms. -/
theorem C9_counterexample :
    pauseResumed.stack = [Scn.gameplayS] ∧
    pauseResumed.g.paused = false ∧
    pauseResumed.g.targets = pauseE2.g.targets ∧
    pauseResumed.g.playerHealth = pauseE2.g.playerHealth ∧
    pauseResumed.g.locked = pauseE2.g.locked ∧
    pauseResumed.g.bullets = pauseE2.g.bullets ∧
    pauseResumed.g.sparks = pauseE2.g.sparks ∧
    cdGet pauseE2.g.cooldowns CKey.kSpawn = 999 ∧
    cdGet pauseResumed.g.cooldowns CKey.kSpawn = 998 ∧
    ¬ cdGet pauseResumed.g.cooldowns CKey.kSpawn
        = cdGet pauseE2.g.cooldowns CKey.kSpawn := by
  decide

/-- C9 amended: while a menu scene is on top of the stack, an engine frame
changes the gameplay state only by ticking the cooldown registry — entities,
health and lock are untouched; and popping back to a paused gameplay scene
runs `enter()` without a reset, clearing only the pause flag.  Pending timers
are therefore NOT restored across a pause: every positive entry keeps
decrementing during menu frames. -/
theorem C9_amended (env : Env) (cfg : Cfg) (elapsed : Int) (inps : List Inp)
    (m : Scn) (hm : m ≠ Scn.gameplayS) :
    (∀ (stack : List Scn) (g0 : GState), g0.crashed = false →
      stack.getLast? = some m →
      (engineFrame env cfg elapsed inps ⟨stack, g0, []⟩).g
        = { g0 with cooldowns := cdTick elapsed g0.cooldowns }) ∧
    (∀ (e2 : Eng) (st : List Scn),
      e2.stack = st ++ [m] → st.getLast? = some Scn.gameplayS →
      e2.g.paused = true →
      (applyTEv cfg e2 TEv.popE).g = { e2.g with paused := false }) := by
  constructor
  · intro stack g0 hc htop
    unfold engineFrame
    rw [if_neg (by simp [hc])]
    rw [show state_manager_update cfg ⟨stack, g0, []⟩ = (⟨stack, g0, []⟩ : Eng)
      from rfl]
    dsimp only
    rw [htop]
    dsimp only
    obtain ⟨hdg, hds⟩ := dispatch_menu_g cfg inps ⟨stack, g0, []⟩ m htop hm
    cases m with
    | gameplayS => exact absurd rfl hm
    | pauseS => dsimp only; rw [hdg]
    | deathS => dsimp only; rw [hdg]
    | winS => dsimp only; rw [hdg]
  · intro e2 st hstack hgame hpause
    unfold applyTEv
    rw [hstack, List.getLast?_concat]
    dsimp only
    rw [List.dropLast_concat, hgame]
    dsimp only
    unfold gameplayEnter
    rw [hpause]
    simp

theorem C9_amended_witness :
    (gCombatSmall.crashed = false ∧
      [Scn.gameplayS, Scn.pauseS].getLast? = some Scn.pauseS) ∧
    (engineFrame envW cfgPause 7 []
        ⟨[Scn.gameplayS, Scn.pauseS], gCombatSmall, []⟩).g
      = { gCombatSmall with cooldowns := cdTick 7 gCombatSmall.cooldowns } :=
  ⟨⟨rfl, rfl⟩,
   (C9_amended envW cfgPause 7 [] Scn.pauseS (by decide)).1
     [Scn.gameplayS, Scn.pauseS] gCombatSmall rfl rfl⟩

end PyType
